import Mathlib

/-!
Verification of jotai-signal (src/signal.ts): a shallow embedding of the
module's pure core in Lean 4.

Modelling conventions:
* A JavaScript runtime value reachable from props/children is embedded as
  `JSVal`.  A Signal handle (an object tagged with the JOTAI_SIGNAL symbol)
  is `vSignal sid` where `sid` is its reference identity; two handles are
  the same object exactly when their sids coincide.
* JS reference identity of containers matters for the structural-sharing
  claims, so `fillA` returns the substituted value together with a Bool
  that is true exactly when the returned value is a freshly allocated
  object (i.e. `result !== input` in JS).  Unchanged branches of the code
  return the input reference itself, which the model renders as flag
  `false` together with a result syntactically equal to the input.
* A plain object `vObj fields hidden protoStd` carries its own enumerable
  string-keyed properties in `fields` (the only part Object.values /
  Object.entries see), the values of its symbol-keyed and non-enumerable
  properties in `hidden`, and `protoStd = true` when its prototype is the
  default Object.prototype (what Object.fromEntries produces).
* `readSignal`'s value (store.get, after any suspension resolved) is a
  `Displayable` (string | number per the source types); the substitution
  functions take an environment `env : Nat → Displayable` mapping a
  handle's sid to its current read value.
-/

/-- The Displayable type of the source: string | number. -/
inductive Displayable where
  | str (s : String)
  | num (n : Int)
deriving DecidableEq, Repr

/-- Embedding of a JavaScript value that can occur in props/children.
vFunc carries an identity for a function value; vSignal is a handle
tagged with the SIGNAL symbol, identified by its reference id. -/
inductive JSVal where
  | vNull
  | vNum (n : Int)
  | vStr (s : String)
  | vFunc (fid : Nat)
  | vSignal (sid : Nat)
  | vArr (elems : List JSVal)
  | vObj (fields : List (String × JSVal)) (hidden : List JSVal) (protoStd : Bool)

def Displayable.toVal : Displayable → JSVal
  | .str s => .vStr s
  | .num n => .vNum n

/-- isSignal: the structural tag test (truthiness of x?.[SIGNAL]). -/
def isSignal : JSVal → Bool
  | .vSignal _ => true
  | _ => false

mutual

/-- findAllSignals (src/signal.ts lines 128-139): collect the handles
reachable through arrays and own enumerable string-keyed object
properties.  Returns the handles' reference ids. -/
def findAllSignals : JSVal → List Nat
  | .vSignal i => [i]
  | .vArr xs => findAllSignalsList xs
  | .vObj fs _ _ => findAllSignalsFields fs
  | _ => []

/-- x.flatMap(findAllSignals) over an array's elements. -/
def findAllSignalsList : List JSVal → List Nat
  | [] => []
  | x :: xs => findAllSignals x ++ findAllSignalsList xs

/-- Object.values(x).flatMap(findAllSignals). -/
def findAllSignalsFields : List (String × JSVal) → List Nat
  | [] => []
  | (_, v) :: fs => findAllSignals v ++ findAllSignalsFields fs

end

mutual

/-- fillAllSignalValues (src/signal.ts lines 141-170) with explicit
reference tracking: the Bool is true exactly when the JS code returns a
newly allocated value (result !== input).  A handle becomes its read
value (a primitive, hence always a different reference from the handle
object); an array or plain object is rebuilt when some member changed,
and is returned as the very same input reference otherwise.  The rebuilt
object comes from Object.fromEntries(Object.entries(x).map(...)), so it
keeps only the own enumerable string-keyed properties and gets the
default prototype. -/
def fillA (env : Nat → Displayable) : JSVal → JSVal × Bool
  | .vSignal i => ((env i).toVal, true)
  | .vArr xs =>
      let r := fillAList env xs
      (if r.2 then .vArr r.1 else .vArr xs, r.2)
  | .vObj fs hidden protoStd =>
      let r := fillAFields env fs
      (if r.2 then .vObj r.1 [] true else .vObj fs hidden protoStd, r.2)
  | x => (x, false)

/-- x.map(fillAllSignalValues) over an array, with the changed flag. -/
def fillAList (env : Nat → Displayable) : List JSVal → List JSVal × Bool
  | [] => ([], false)
  | x :: xs =>
      let r := fillA env x
      let rs := fillAList env xs
      (r.1 :: rs.1, r.2 || rs.2)

/-- Object.entries(x).map(([k, v]) => [k, fillAllSignalValues(v)]) with
the changed flag. -/
def fillAFields (env : Nat → Displayable) :
    List (String × JSVal) → List (String × JSVal) × Bool
  | [] => ([], false)
  | (k, v) :: fs =>
      let r := fillA env v
      let rs := fillAFields env fs
      ((k, r.1) :: rs.1, r.2 || rs.2)

end

/-- The value fillAllSignalValues returns. -/
def fillAllSignalValues (env : Nat → Displayable) (x : JSVal) : JSVal :=
  (fillA env x).1

/-- Occurrence of handle i somewhere in the structure that the scanner
walks: at the top, inside an array element, or inside the value of an own
enumerable string-keyed property. -/
inductive SignalIn : Nat → JSVal → Prop where
  | self (i : Nat) : SignalIn i (.vSignal i)
  | inArr {i : Nat} {x : JSVal} {xs : List JSVal} :
      x ∈ xs → SignalIn i x → SignalIn i (.vArr xs)
  | inObj {i : Nat} {k : String} {v : JSVal}
      {fs : List (String × JSVal)} {hidden : List JSVal} {protoStd : Bool} :
      (k, v) ∈ fs → SignalIn i v → SignalIn i (.vObj fs hidden protoStd)

/-! ## Handle registry (getSignal, src/signal.ts lines 58-76)

Stores and atoms are identified by their reference ids (Nat).  A WeakMap
is modelled as an association list on reference ids; the model has no
garbage collection, which corresponds to the claim's proviso that both
keys stay reachable.  Freshly created Signal objects get distinct
reference ids from a counter. -/

/-- WeakMap.get. -/
def wmGet {α : Type} : List (Nat × α) → Nat → Option α
  | [], _ => none
  | (k, v) :: m, k' => if k' = k then some v else wmGet m k'

/-- WeakMap.set (overwrites an existing key, else appends). -/
def wmSet {α : Type} : List (Nat × α) → Nat → α → List (Nat × α)
  | [], k, v => [(k, v)]
  | (k0, v0) :: m, k, v =>
      if k = k0 then (k, v) :: m else (k0, v0) :: wmSet m k v

/-- The module-level signalCache (store → (atom → Signal)) together with
the allocator for fresh Signal object identities. -/
structure RegistryState where
  cache : List (Nat × List (Nat × Nat))
  nextSid : Nat

/-- getSignal (src/signal.ts lines 60-76): look up the two-level cache;
on a miss, install the missing inner map and/or a fresh Signal whose
subscribe and read delegate to the store, and cache it. -/
def getSignal (st : RegistryState) (store atom : Nat) : Nat × RegistryState :=
  match wmGet st.cache store with
  | some inner =>
      match wmGet inner atom with
      | some sid => (sid, st)
      | none =>
          (st.nextSid,
           { cache := wmSet st.cache store (wmSet inner atom st.nextSid),
             nextSid := st.nextSid + 1 })
  | none =>
      (st.nextSid,
       { cache := wmSet st.cache store (wmSet [] atom st.nextSid),
         nextSid := st.nextSid + 1 })

/-! ## useMemoList (src/signal.ts lines 100-110) -/

/-- The listChanged computation of useMemoList:
list.length !== state.length || list.some((arg, i) => !compareFn(arg, state[i])). -/
def listChanged {α : Type} (compareFn : α → α → Bool) (list state : List α) : Bool :=
  list.length != state.length
    || (list.zip state).any (fun p => ! compareFn p.1 p.2)

/-- useMemoList: first component is the returned list, second is the
committed useState state after the render settles, third is true exactly
when the hook returned the freshly allocated list (and scheduled a state
update) rather than the previous state object. -/
def useMemoList {α : Type} (compareFn : α → α → Bool) (list state : List α) :
    List α × List α × Bool :=
  let changed := listChanged compareFn list state
  (if changed then list else state, if changed then list else state, changed)

/-! ## Rerenderer (src/signal.ts lines 112-126)

The component's per-instance state: the useReducer counter, the
useMemoList state (the committed memoized signal list), and the set of
signals currently subscribed by the useEffect (its cleanup unsubscribes
them all, then the effect body subscribes every signal of the new
memoized list, each with the rerender dispatch as callback).  The effect
re-runs exactly when its dependency — the memoized list reference —
changes, i.e. exactly when useMemoList returned the fresh list.
renders counts committed render passes, the observable cost. -/

structure RerendererState where
  counter : Nat
  memo : List Nat
  subs : List Nat
  renders : Nat
deriving DecidableEq, Repr

/-- Reference equality on Signal objects: sid equality. -/
def signalEq (a b : Nat) : Bool := a == b

/-- One committed render pass of the Rerenderer with props list L.
When the memo list changes, useMemoList schedules a state update, which
re-executes the render once more before commit (two render executions,
one commit) and the effect re-runs against the new list; otherwise one
execution and the subscriptions stay as they are. -/
def renderCommit (s : RerendererState) (L : List Nat) : RerendererState :=
  let changed := listChanged signalEq L s.memo
  { counter := s.counter,
    memo := if changed then L else s.memo,
    subs := if changed then L else s.subs,
    renders := s.renders + (if changed then 2 else 1) }

/-- Initial mount with props list L: useState initializes the memo state
to L itself (same reference, so listChanged is false) and the effect runs
unconditionally on mount, subscribing every signal of L. -/
def mount (L : List Nat) : RerendererState :=
  { counter := 0, memo := L, subs := L, renders := 1 }

/-- The store fires the subscription callback of handle h: if h is
currently subscribed its callback is the rerender dispatch, which bumps
the reducer counter and causes one committed render pass with the same
props; if h is not subscribed nothing happens. -/
def fire (s : RerendererState) (L : List Nat) (h : Nat) : RerendererState :=
  if h ∈ s.subs then
    renderCommit { s with counter := s.counter + 1 } L
  else s

/-! ## use (src/signal.ts lines 13-42) and readSignal (lines 83-91) -/

/-- The status field the use shim maintains on a promise: absent at
first, then pending, settling exactly once to fulfilled or rejected.
A rejection reason is identified by a Nat. -/
inductive PStatus where
  | unset
  | pending
  | fulfilled (v : Displayable)
  | rejected (e : Nat)
deriving DecidableEq, Repr

/-- A settlement event of the underlying promise. -/
inductive SettleEvent where
  | fulfil (v : Displayable)
  | reject (e : Nat)
deriving DecidableEq, Repr

/-- The handlers the use shim attaches with promise.then: when the
promise settles they move a pending status to fulfilled/rejected; a
settled status never changes again. -/
def settle : PStatus → SettleEvent → PStatus
  | .pending, .fulfil v => .fulfilled v
  | .pending, .reject e => .rejected e
  | .unset, .fulfil v => .fulfilled v
  | .unset, .reject e => .rejected e
  | s, _ => s

/-- What a call that may suspend does: return a value, throw the promise
(suspending the render), or throw the rejection reason (failing the
render attempt with it). -/
inductive ReadOutcome where
  | value (v : JSVal)
  | suspend
  | throwReason (e : Nat)

/-- The use shim (src/signal.ts lines 13-42): pending throws the
promise; fulfilled returns the recorded value; rejected throws the
recorded reason; an untracked promise is marked pending, gets the
settlement handlers attached, and is thrown. -/
def use : PStatus → ReadOutcome × PStatus
  | .pending => (.suspend, .pending)
  | .fulfilled v => (.value v.toVal, .fulfilled v)
  | .rejected e => (.throwReason e, .rejected e)
  | .unset => (.suspend, .pending)

/-- What store.get(atom) hands back inside readSignal: either an actual
Promise instance (with its current use status) or any other value — the
instanceof Promise test sees only the former.  A thenable that is not a
Promise instance is an `other`. -/
inductive ReadResult where
  | promiseInstance (p : PStatus)
  | other (v : JSVal)

/-- readSignal (src/signal.ts lines 83-91): call read(); if the value is
an instanceof Promise, defer to use; otherwise return it as is. -/
def readSignal : ReadResult → ReadOutcome × ReadResult
  | .promiseInstance p =>
      let r := use p
      (r.1, .promiseInstance r.2)
  | .other v => (.value v, .other v)

/-! ## createElement (src/signal.ts lines 172-190) -/

/-- signalsInChildren: children.flatMap(child => isSignal(child) ? [child] : []).
A shallow filter over the direct children only. -/
def signalsInChildren (children : List JSVal) : List Nat :=
  children.flatMap (fun c => match c with | .vSignal i => [i] | _ => [])

/-- getChildren: when some direct child is a signal, map each child,
replacing a direct signal child by its read value and leaving every
other child as the same reference; otherwise the original children. -/
def getChildren (env : Nat → Displayable) (children : List JSVal) : List JSVal :=
  if (signalsInChildren children).length != 0 then
    children.map (fun c => match c with | .vSignal i => (env i).toVal | c => c)
  else children

/-- getProps: when the recursive scan of props found signals, substitute
them all via fillAllSignalValues; otherwise the original props. -/
def getProps (env : Nat → Displayable) (props : JSVal) : JSVal :=
  if (findAllSignals props).length != 0 then fillAllSignalValues env props
  else props

/-- Whether createElement wraps the element in a Rerenderer at all. -/
def createElementWraps (props : JSVal) (children : List JSVal) : Bool :=
  !((signalsInChildren children).length == 0 && (findAllSignals props).length == 0)

/-- The signals prop handed to the Rerenderer:
[...signalsInChildren, ...signalsInProps]. -/
def boundarySignals (props : JSVal) (children : List JSVal) : List Nat :=
  signalsInChildren children ++ findAllSignals props

/-! ## Helper lemmas -/

theorem displayable_toVal_noSignal (d : Displayable) :
    findAllSignals d.toVal = [] := by
  cases d <;> rfl

mutual

theorem fillA_unchanged (env : Nat → Displayable) :
    (x : JSVal) → findAllSignals x = [] → fillA env x = (x, false)
  | .vNull, _ => rfl
  | .vNum _, _ => rfl
  | .vStr _, _ => rfl
  | .vFunc _, _ => rfl
  | .vSignal _, h => by simp [findAllSignals] at h
  | .vArr xs, h => by
      have h' : findAllSignalsList xs = [] := h
      simp [fillA, fillAList_unchanged env xs h']
  | .vObj fs hid p, h => by
      have h' : findAllSignalsFields fs = [] := h
      simp [fillA, fillAFields_unchanged env fs h']

theorem fillAList_unchanged (env : Nat → Displayable) :
    (xs : List JSVal) → findAllSignalsList xs = [] → fillAList env xs = (xs, false)
  | [], _ => rfl
  | x :: xs, h => by
      have h' : findAllSignals x = [] ∧ findAllSignalsList xs = [] := by
        simpa [findAllSignalsList] using h
      simp [fillAList, fillA_unchanged env x h'.1, fillAList_unchanged env xs h'.2]

theorem fillAFields_unchanged (env : Nat → Displayable) :
    (fs : List (String × JSVal)) → findAllSignalsFields fs = [] →
      fillAFields env fs = (fs, false)
  | [], _ => rfl
  | (k, v) :: fs, h => by
      have h' : findAllSignals v = [] ∧ findAllSignalsFields fs = [] := by
        simpa [findAllSignalsFields] using h
      simp [fillAFields, fillA_unchanged env v h'.1, fillAFields_unchanged env fs h'.2]

end

mutual

theorem fillA_flag_false (env : Nat → Displayable) :
    (x : JSVal) → (fillA env x).2 = false → findAllSignals x = []
  | .vNull, _ => rfl
  | .vNum _, _ => rfl
  | .vStr _, _ => rfl
  | .vFunc _, _ => rfl
  | .vSignal _, h => by simp [fillA] at h
  | .vArr xs, h => by
      have h' : (fillAList env xs).2 = false := by simpa [fillA] using h
      simpa [findAllSignals] using fillAList_flag_false env xs h'
  | .vObj fs hid p, h => by
      have h' : (fillAFields env fs).2 = false := by simpa [fillA] using h
      simpa [findAllSignals] using fillAFields_flag_false env fs h'

theorem fillAList_flag_false (env : Nat → Displayable) :
    (xs : List JSVal) → (fillAList env xs).2 = false → findAllSignalsList xs = []
  | [], _ => rfl
  | x :: xs, h => by
      have h' : (fillA env x).2 = false ∧ (fillAList env xs).2 = false := by
        simpa [fillAList] using h
      simp [findAllSignalsList, fillA_flag_false env x h'.1,
        fillAList_flag_false env xs h'.2]

theorem fillAFields_flag_false (env : Nat → Displayable) :
    (fs : List (String × JSVal)) → (fillAFields env fs).2 = false →
      findAllSignalsFields fs = []
  | [], _ => rfl
  | (k, v) :: fs, h => by
      have h' : (fillA env v).2 = false ∧ (fillAFields env fs).2 = false := by
        simpa [fillAFields] using h
      simp [findAllSignalsFields, fillA_flag_false env v h'.1,
        fillAFields_flag_false env fs h'.2]

end

mutual

theorem findAllSignals_fill (env : Nat → Displayable) :
    (x : JSVal) → findAllSignals (fillA env x).1 = []
  | .vNull => rfl
  | .vNum _ => rfl
  | .vStr _ => rfl
  | .vFunc _ => rfl
  | .vSignal i => by simpa [fillA] using displayable_toVal_noSignal (env i)
  | .vArr xs => by
      rcases hfl : (fillAList env xs).2 with _ | _
      · have := fillAList_flag_false env xs hfl
        simp [fillA, hfl, findAllSignals, this]
      · have := findAllSignalsList_fill env xs
        simp [fillA, hfl, findAllSignals, this]
  | .vObj fs hid p => by
      rcases hfl : (fillAFields env fs).2 with _ | _
      · have := fillAFields_flag_false env fs hfl
        simp [fillA, hfl, findAllSignals, this]
      · have := findAllSignalsFields_fill env fs
        simp [fillA, hfl, findAllSignals, this]

theorem findAllSignalsList_fill (env : Nat → Displayable) :
    (xs : List JSVal) → findAllSignalsList (fillAList env xs).1 = []
  | [] => rfl
  | x :: xs => by
      have h1 := findAllSignals_fill env x
      have h2 := findAllSignalsList_fill env xs
      simp [fillAList, findAllSignalsList, h1, h2]

theorem findAllSignalsFields_fill (env : Nat → Displayable) :
    (fs : List (String × JSVal)) → findAllSignalsFields (fillAFields env fs).1 = []
  | [] => rfl
  | (k, v) :: fs => by
      have h1 := findAllSignals_fill env v
      have h2 := findAllSignalsFields_fill env fs
      simp [fillAFields, findAllSignalsFields, h1, h2]

end

theorem fillAFields_append (env : Nat → Displayable)
    (fs1 fs2 : List (String × JSVal)) :
    fillAFields env (fs1 ++ fs2) =
      ((fillAFields env fs1).1 ++ (fillAFields env fs2).1,
       (fillAFields env fs1).2 || (fillAFields env fs2).2) := by
  induction fs1 with
  | nil => simp [fillAFields]
  | cons kv fs ih =>
      obtain ⟨k, v⟩ := kv
      simp [fillAFields, ih, Bool.or_assoc]

mutual

theorem mem_findAllSignals (i : Nat) :
    (x : JSVal) → (i ∈ findAllSignals x ↔ SignalIn i x)
  | .vNull => by
      simp only [findAllSignals, List.not_mem_nil, false_iff]
      intro h; cases h
  | .vNum n => by
      simp only [findAllSignals, List.not_mem_nil, false_iff]
      intro h; cases h
  | .vStr s => by
      simp only [findAllSignals, List.not_mem_nil, false_iff]
      intro h; cases h
  | .vFunc f => by
      simp only [findAllSignals, List.not_mem_nil, false_iff]
      intro h; cases h
  | .vSignal j => by
      simp only [findAllSignals, List.mem_singleton]
      constructor
      · rintro rfl; exact .self i
      · intro h; cases h; rfl
  | .vArr xs => by
      rw [show findAllSignals (.vArr xs) = findAllSignalsList xs from rfl,
        mem_findAllSignalsList i xs]
      constructor
      · rintro ⟨x, hx, hin⟩; exact .inArr hx hin
      · intro h; cases h with
        | inArr hx hin => exact ⟨_, hx, hin⟩
  | .vObj fs hid p => by
      rw [show findAllSignals (.vObj fs hid p) = findAllSignalsFields fs from rfl,
        mem_findAllSignalsFields i fs]
      constructor
      · rintro ⟨k, v, hkv, hin⟩; exact .inObj hkv hin
      · intro h; cases h with
        | inObj hkv hin => exact ⟨_, _, hkv, hin⟩

theorem mem_findAllSignalsList (i : Nat) :
    (xs : List JSVal) →
      (i ∈ findAllSignalsList xs ↔ ∃ x, x ∈ xs ∧ SignalIn i x)
  | [] => by simp [findAllSignalsList]
  | x :: xs => by
      simp only [findAllSignalsList, List.mem_append, List.mem_cons,
        mem_findAllSignals i x, mem_findAllSignalsList i xs]
      constructor
      · rintro (h | ⟨y, hy, hin⟩)
        · exact ⟨x, Or.inl rfl, h⟩
        · exact ⟨y, Or.inr hy, hin⟩
      · rintro ⟨y, (rfl | hy), hin⟩
        · exact Or.inl hin
        · exact Or.inr ⟨y, hy, hin⟩

theorem mem_findAllSignalsFields (i : Nat) :
    (fs : List (String × JSVal)) →
      (i ∈ findAllSignalsFields fs ↔ ∃ k v, (k, v) ∈ fs ∧ SignalIn i v)
  | [] => by simp [findAllSignalsFields]
  | (k, v) :: fs => by
      simp only [findAllSignalsFields, List.mem_append, List.mem_cons,
        mem_findAllSignals i v, mem_findAllSignalsFields i fs]
      constructor
      · rintro (h | ⟨k1, v1, hkv, hin⟩)
        · exact ⟨k, v, Or.inl rfl, h⟩
        · exact ⟨k1, v1, Or.inr hkv, hin⟩
      · rintro ⟨k1, v1, (heq | hkv), hin⟩
        · cases heq; exact Or.inl hin
        · exact Or.inr ⟨k1, v1, hkv, hin⟩

end

theorem wmGet_wmSet_self {α : Type} (m : List (Nat × α)) (k : Nat) (v : α) :
    wmGet (wmSet m k v) k = some v := by
  induction m with
  | nil => simp [wmSet, wmGet]
  | cons kv m ih =>
      obtain ⟨k0, v0⟩ := kv
      by_cases h : k = k0
      · simp [wmSet, wmGet, h]
      · simp [wmSet, wmGet, h, ih]

theorem fillAFields_values (env : Nat → Displayable)
    (fs : List (String × JSVal)) :
    (fillAFields env fs).1 = fs.map (fun kv => (kv.1, (fillA env kv.2).1)) := by
  induction fs with
  | nil => rfl
  | cons kv fs ih =>
      obtain ⟨k, v⟩ := kv
      simp [fillAFields, ih]

/-! ## Claim theorems -/

/-- C1: for every registry state, store and value cell, two calls to
getSignal return the same Signal handle by reference identity: the
second call returns exactly the handle the first call returned and
leaves the registry unchanged; moreover, when the (store, cell) pair is
not yet cached, the first call creates the fresh handle and caches it so
that it is found by lookup afterwards. -/
theorem getSignal_stable (st : RegistryState) (store atom : Nat)
    (hmiss : ∀ inner, wmGet st.cache store = some inner →
      wmGet inner atom = none) :
    getSignal (getSignal st store atom).2 store atom
      = ((getSignal st store atom).1, (getSignal st store atom).2)
    ∧ (getSignal st store atom).1 = st.nextSid
    ∧ (∃ inner, wmGet (getSignal st store atom).2.cache store = some inner
        ∧ wmGet inner atom = some (getSignal st store atom).1) := by
  rcases h1 : wmGet st.cache store with _ | inner
  · refine ⟨?_, ?_, ?_⟩
    · simp [getSignal, h1, wmGet_wmSet_self]
    · simp [getSignal, h1]
    · refine ⟨wmSet [] atom st.nextSid, ?_, ?_⟩
      · simp [getSignal, h1, wmGet_wmSet_self]
      · simp [getSignal, h1, wmGet_wmSet_self]
  · rcases h2 : wmGet inner atom with _ | sid
    · refine ⟨?_, ?_, ?_⟩
      · simp [getSignal, h1, h2, wmGet_wmSet_self]
      · simp [getSignal, h1, h2]
      · refine ⟨wmSet inner atom st.nextSid, ?_, ?_⟩
        · simp [getSignal, h1, h2, wmGet_wmSet_self]
        · simp [getSignal, h1, h2, wmGet_wmSet_self]
    · exact absurd (hmiss inner h1) (by simp [h2])

/-- C1 witness: on the empty registry, the pair (store 4, atom 7) is
uncached; the first call allocates handle 0 and the second call returns
the very same handle with the registry untouched. -/
theorem getSignal_stable_witness :
    getSignal (getSignal ⟨[], 0⟩ 4 7).2 4 7
      = ((getSignal ⟨[], 0⟩ 4 7).1, (getSignal ⟨[], 0⟩ 4 7).2)
    ∧ (getSignal ⟨[], 0⟩ 4 7).1 = 0
    ∧ (∃ inner, wmGet (getSignal ⟨[], 0⟩ 4 7).2.cache 4 = some inner
        ∧ wmGet inner 7 = some (getSignal ⟨[], 0⟩ 4 7).1) :=
  getSignal_stable ⟨[], 0⟩ 4 7 (fun inner h => by simp [wmGet] at h)

/-- C5: findAllSignals collects exactly the handles embedded in the
structure (membership coincides with the SignalIn occurrence relation),
in left-to-right depth-first encounter order (handles at depths 0, 1 and
3 come out in encounter order); it returns the empty list on null,
numbers, strings, functions and handle-free objects/arrays; and it does
not deduplicate: the same handle reference occurring twice occurs twice
in the result. -/
theorem findAllSignals_spec (a b c f : Nat) (n : Int) (s : String) :
    (∀ i x, i ∈ findAllSignals x ↔ SignalIn i x)
    ∧ findAllSignals (.vSignal a) = [a]
    ∧ findAllSignals
        (.vArr [.vSignal a, .vObj [("x", .vSignal b)] [] true,
          .vObj [("y", .vArr [.vArr [.vSignal c]])] [] true]) = [a, b, c]
    ∧ findAllSignals .vNull = []
    ∧ findAllSignals (.vNum n) = []
    ∧ findAllSignals (.vStr s) = []
    ∧ findAllSignals (.vFunc f) = []
    ∧ findAllSignals (.vObj [("k", .vNum 1), ("l", .vArr [.vStr "z"])] [] true) = []
    ∧ findAllSignals (.vArr [.vSignal a, .vObj [("k", .vSignal a)] [] true]) = [a, a] :=
  ⟨mem_findAllSignals, rfl, rfl, rfl, rfl, rfl, rfl, rfl, rfl⟩

/-- C7: readSignal returns a non-Promise read result synchronously and
unchanged; a pending (or not yet tracked) Promise result suspends the
render by throwing the promise (an untracked promise is first marked
pending); once the promise settles to fulfilled, the re-executed read
resumes with the resolved value; and if it settles to a rejection, the
read re-throws exactly the rejection reason, failing the render attempt
with it. -/
theorem readSignal_suspend_resume (d : Displayable) (e : Nat) (v : JSVal) :
    readSignal (.other v) = (.value v, .other v)
    ∧ readSignal (.promiseInstance .pending) = (.suspend, .promiseInstance .pending)
    ∧ readSignal (.promiseInstance .unset) = (.suspend, .promiseInstance .pending)
    ∧ settle .pending (.fulfil d) = .fulfilled d
    ∧ readSignal (.promiseInstance (settle .pending (.fulfil d)))
        = (.value d.toVal, .promiseInstance (.fulfilled d))
    ∧ settle .pending (.reject e) = .rejected e
    ∧ readSignal (.promiseInstance (settle .pending (.reject e)))
        = (.throwReason e, .promiseInstance (.rejected e)) :=
  ⟨rfl, rfl, rfl, rfl, rfl, rfl, rfl⟩

/-- C8: useMemoList returns the previous committed list object (and
leaves the state untouched) exactly when the fresh list and the previous
one have equal length and are element-wise equal under the comparison
function; otherwise it returns the fresh list and commits it as the new
state. -/
theorem useMemoList_spec {α : Type} (compareFn : α → α → Bool)
    (list state : List α) :
    ((useMemoList compareFn list state).2.2 = false ↔
      (list.length = state.length
        ∧ ∀ p ∈ list.zip state, compareFn p.1 p.2 = true))
    ∧ ((useMemoList compareFn list state).2.2 = false →
        useMemoList compareFn list state = (state, state, false))
    ∧ ((useMemoList compareFn list state).2.2 = true →
        useMemoList compareFn list state = (list, list, true)) := by
  refine ⟨?_, ?_, ?_⟩
  · simp [useMemoList, listChanged]
  · intro h
    have h' : listChanged compareFn list state = false := by
      simpa [useMemoList] using h
    simp [useMemoList, h']
  · intro h
    have h' : listChanged compareFn list state = true := by
      simpa [useMemoList] using h
    simp [useMemoList, h']

/-- C8 witness: on the element-wise equal pair [1, 2] / [1, 2] the hook
returns the previous state object without committing, and on [1] / []
the length differs so it returns and commits the fresh list. -/
theorem useMemoList_spec_witness :
    useMemoList (fun a b : Nat => a == b) [1, 2] [1, 2] = ([1, 2], [1, 2], false)
    ∧ useMemoList (fun a b : Nat => a == b) [1] [] = ([1], [1], true) :=
  ⟨(useMemoList_spec (fun a b : Nat => a == b) [1, 2] [1, 2]).2.1 (by decide),
   (useMemoList_spec (fun a b : Nat => a == b) [1] []).2.2 (by decide)⟩

/-- C9: readSignal treats a read result as pending only when it is an
instance of Promise; every non-Promise value — in particular a thenable
object that is not a Promise instance — is returned synchronously and
unchanged, never suspending; only a Promise instance is routed through
the suspending use shim. -/
theorem readSignal_instanceof (v : JSVal) (p : PStatus) :
    readSignal (.other v) = (.value v, .other v)
    ∧ readSignal (.other (.vObj [("then", .vFunc 0)] [] true))
        = (.value (.vObj [("then", .vFunc 0)] [] true),
           .other (.vObj [("then", .vFunc 0)] [] true))
    ∧ readSignal (.promiseInstance p) = ((use p).1, .promiseInstance (use p).2) :=
  ⟨rfl, rfl, rfl⟩

/-- C2: across committed render passes of the Rerenderer the active
subscription set always equals the most recently committed (memoized)
handle list: mount establishes it and every committed pass preserves it
(a changed list tears down every old subscription and subscribes the new
list); firing a currently subscribed handle while the props list is
stable triggers exactly one additional render pass (one reducer bump,
subscriptions untouched); and after a pass that commits the empty list,
a subsequent fire on the previously subscribed handle finds no
subscription and produces no re-render at all. -/
theorem rerenderer_lifecycle (s : RerendererState) (L : List Nat) (h : Nat)
    (hinv : s.subs = s.memo) :
    (∀ M, (renderCommit s M).subs = (renderCommit s M).memo)
    ∧ ((mount L).subs = (mount L).memo ∧ (mount L).subs = L)
    ∧ (h ∈ s.subs → listChanged signalEq L s.memo = false →
        fire s L h = { counter := s.counter + 1, memo := s.memo,
                       subs := s.subs, renders := s.renders + 1 })
    ∧ (renderCommit s []).subs = []
    ∧ fire (renderCommit s []) [] h = renderCommit s [] := by
  refine ⟨?_, ⟨rfl, rfl⟩, ?_, ?_, ?_⟩
  · intro M
    rcases hc : listChanged signalEq M s.memo with _ | _
    · simp [renderCommit, hc, hinv]
    · simp [renderCommit, hc]
  · intro hmem hstable
    simp [fire, hmem, renderCommit, hstable]
  · rcases hm : s.memo with _ | ⟨m, ms⟩
    · simp [renderCommit, listChanged, hm, hinv]
    · simp [renderCommit, listChanged, hm]
  · have hempty : (renderCommit s []).subs = [] := by
      rcases hm : s.memo with _ | ⟨m, ms⟩
      · simp [renderCommit, listChanged, hm, hinv]
      · simp [renderCommit, listChanged, hm]
    simp [fire, hempty]

/-- C2 witness: mounting with handle list [3] subscribes handle 3;
firing it performs exactly one more render pass; after committing the
empty list the subscription is gone and a further fire on handle 3 is a
no-op. -/
theorem rerenderer_lifecycle_witness :
    (3 ∈ (mount [3]).subs ∧ listChanged signalEq [3] (mount [3]).memo = false)
    ∧ fire (mount [3]) [3] 3
        = { counter := 1, memo := [3], subs := [3], renders := 2 }
    ∧ (renderCommit (mount [3]) []).subs = []
    ∧ fire (renderCommit (mount [3]) []) [] 3 = renderCommit (mount [3]) [] :=
  ⟨⟨by decide, by decide⟩,
   (rerenderer_lifecycle (mount [3]) [3] 3 rfl).2.2.1 (by decide) (by decide),
   (rerenderer_lifecycle (mount [3]) [3] 3 rfl).2.2.2.1,
   (rerenderer_lifecycle (mount [3]) [3] 3 rfl).2.2.2.2⟩

/-- C3: in createElement's two substitution closures, a handle that is
itself a direct child is replaced by its read value while a handle
nested inside a child's own object structure survives untouched on the
children path; on the properties path every handle discovered by the
recursive scan is substituted — at any depth, the substituted props
contain no signal the scanner can find — and a handle one level inside
the props object is indeed replaced by its read value. -/
theorem createElement_substitution_asymmetry (env : Nat → Displayable)
    (i j : Nat) (k : String) :
    getChildren env [.vSignal i, .vObj [(k, .vSignal j)] [] true]
      = [(env i).toVal, .vObj [(k, .vSignal j)] [] true]
    ∧ (∀ props : JSVal, findAllSignals (getProps env props) = [])
    ∧ getProps env (.vObj [(k, .vSignal j)] [] true)
        = .vObj [(k, (env j).toVal)] [] true := by
  refine ⟨?_, ?_, ?_⟩
  · simp [getChildren, signalsInChildren]
  · intro props
    rcases hlen : (findAllSignals props).length with _ | _
    · have : findAllSignals props = [] := List.length_eq_zero.mp hlen
      simp [getProps, hlen, this]
    · simp only [getProps, fillAllSignalValues, hlen]
      simpa using findAllSignals_fill env props
  · simp [getProps, findAllSignals, findAllSignalsFields, fillAllSignalValues,
      fillA, fillAFields]

/-- C4 counterexample: for the single child that is a plain object with
a handle one level inside it, the shallow children filter of
createElement finds nothing, while the recursive scanner applied to the
same children list finds the handle — so the detected children-handle
list is not the recursive scan's result; consequently createElement with
null props does not wrap this call in a Rerenderer at all. -/
theorem createElement_children_scan_counterexample :
    signalsInChildren [.vObj [("a", .vSignal 0)] [] true] = []
    ∧ findAllSignalsList [.vObj [("a", .vSignal 0)] [] true] = [0]
    ∧ signalsInChildren [.vObj [("a", .vSignal 0)] [] true]
        ≠ findAllSignalsList [.vObj [("a", .vSignal 0)] [] true]
    ∧ createElementWraps .vNull [.vObj [("a", .vSignal 0)] [] true] = false :=
  ⟨rfl, rfl, by decide, rfl⟩

/-- C4 amended: the handles detected in the children list are exactly
the direct children that are themselves handles (a shallow filter, not
the recursive scanner, which is applied only to the props object), and
the list handed to the Rerenderer concatenates them before the handles
recursively found in props: a direct child handle and a props-nested
handle are listed in that order, while a handle nested inside a child
object is absent. -/
theorem boundarySignals_shallow_children (i j k : Nat) :
    (∀ (cs : List JSVal) (g : Nat),
      g ∈ signalsInChildren cs ↔ JSVal.vSignal g ∈ cs)
    ∧ boundarySignals (.vObj [("p", .vObj [("q", .vSignal j)] [] true)] [] true)
        [.vSignal i, .vObj [("a", .vSignal k)] [] true] = [i, j] := by
  constructor
  · intro cs g
    induction cs with
    | nil => simp [signalsInChildren]
    | cons c cs ih =>
        rcases c with _ | _ | _ | _ | sid | xs | fs
        all_goals
          simp only [signalsInChildren, List.flatMap_cons, List.mem_append,
            List.mem_cons] at ih ⊢
        all_goals simp_all [signalsInChildren]
  · rfl

/-- C6: fillAllSignalValues preserves structural sharing: on any value
in which the scanner finds no handle it returns the identical input
reference (changed flag false, result the input itself) — in particular
on handle-free objects and sequences; and on an object exactly one of
whose fields is a handle it returns a freshly built object in which only
that field is replaced by the handle's read value while every sibling
field keeps the very value reference it had in the input. -/
theorem fillAllSignalValues_sharing (env : Nat → Displayable) (x : JSVal)
    (pre post : List (String × JSVal)) (k : String) (i : Nat)
    (hidden : List JSVal) (protoStd : Bool)
    (hx : findAllSignals x = [])
    (hpre : findAllSignalsFields pre = [])
    (hpost : findAllSignalsFields post = []) :
    fillA env x = (x, false)
    ∧ fillA env (.vObj (pre ++ (k, .vSignal i) :: post) hidden protoStd)
        = (.vObj (pre ++ (k, (env i).toVal) :: post) [] true, true) := by
  refine ⟨fillA_unchanged env x hx, ?_⟩
  have hfields :
      fillAFields env (pre ++ (k, .vSignal i) :: post)
        = (pre ++ (k, (env i).toVal) :: post, true) := by
    rw [fillAFields_append, fillAFields_unchanged env pre hpre]
    simp [fillAFields, fillA, fillAFields_unchanged env post hpost]
  simp [fillA, hfields]

/-- C6 witness: the handle-free array [1] passes through unchanged, and
the object with fields a = 0, c = handle 5, b = "s" (handle read value
2) is rebuilt with only the middle field replaced. -/
theorem fillAllSignalValues_sharing_witness :
    fillA (fun _ => .num 2) (.vArr [.vNum 1]) = (.vArr [.vNum 1], false)
    ∧ fillA (fun _ => .num 2)
        (.vObj ([("a", .vNum 0)] ++ ("c", .vSignal 5) :: [("b", .vStr "s")]) [] true)
        = (.vObj ([("a", .vNum 0)] ++ ("c", .vNum 2) :: [("b", .vStr "s")]) [] true,
           true) :=
  fillAllSignalValues_sharing (fun _ => .num 2) (.vArr [.vNum 1])
    [("a", .vNum 0)] [("b", .vStr "s")] "c" 5 [] true rfl rfl rfl

/-- C10: whenever fillAllSignalValues rebuilds a plain keyed object
(changed flag true), the rebuilt object consists of exactly the own
enumerable string-keyed properties of the input — the same keys in the
same order, each value the substitution of the input's value — while the
symbol-keyed and non-enumerable properties are dropped and the result
gets the default Object prototype regardless of the input's. -/
theorem fillAllSignalValues_rebuild (env : Nat → Displayable)
    (fs : List (String × JSVal)) (hidden : List JSVal) (protoStd : Bool)
    (hch : (fillA env (.vObj fs hidden protoStd)).2 = true) :
    fillA env (.vObj fs hidden protoStd)
      = (.vObj (fs.map (fun kv => (kv.1, (fillA env kv.2).1))) [] true, true) := by
  have hflag : (fillAFields env fs).2 = true := by
    simpa [fillA] using hch
  simp [fillA, hflag, fillAFields_values]

/-- C10 witness: an object with one handle field, one symbol-keyed or
non-enumerable value 9 and a custom prototype is rebuilt keeping only
the string-keyed field (substituted) with the default prototype. -/
theorem fillAllSignalValues_rebuild_witness :
    fillA (fun _ => .num 1) (.vObj [("a", .vSignal 0)] [.vNum 9] false)
      = (.vObj [("a", .vNum 1)] [] true, true) :=
  fillAllSignalValues_rebuild (fun _ => .num 1) [("a", .vSignal 0)]
    [.vNum 9] false (by decide)
